import Mathlib

/-!
Verification of the review-state synchronization engine of claudine-review.

The definitions below are a shallow embedding of the TypeScript source:
  * data model        — src/shared/types.ts (zod schemas), extended with the
                        `branch` and `summary` fields used by the store in
                        src/unnamed/part_020 (that schema revision is not in
                        src/, its shape is taken from spec §3);
  * ReviewStore       — src/unnamed/part_020 (load, backupAndReset,
                        writeAtomic, reloadIfChanged, getData, addComment,
                        updateComment, deleteComment, setSummary);
  * git file access   — src/unnamed/part_017 (getFileContent);
  * SSE notifier      — src/unnamed/part_021 lines 196-245 (broadcast).

Strings that the code treats opaquely (timestamps, ids, bodies, branch
names, file contents) are modelled as `String`.  Filesystem paths are
modelled as lists of path components (the string form "/a/b" corresponds
to the component list ["a", "b"]); the correspondence is noted at each
path operation.  Nondeterministic external inputs (nanoid output, clock
readings, mtimes, I/O failures) are parameters of the embedded functions.
-/

namespace ClaudineReview

/-- Comment-level status, from CommentSchema: z.enum(["draft","pending","resolved"]). -/
inductive CommentStatus
  | draft
  | pending
  | resolved
deriving DecidableEq, Repr

/-- Document-level status, from ReviewDataSchema: z.enum(["draft","submitted","resolved"]). -/
inductive DocStatus
  | draft
  | submitted
  | resolved
deriving DecidableEq, Repr

/-- Diff side a comment anchors to, from CommentSchema. -/
inductive Side
  | old
  | new
deriving DecidableEq, Repr

/-- Thread-entry author, from ThreadEntrySchema: z.enum(["ai","user"]). -/
inductive Author
  | ai
  | user
deriving DecidableEq, Repr

/-- One message of a comment's conversation, from ThreadEntrySchema. -/
structure ThreadEntry where
  author : Author
  body : String
  createdAt : Option String
deriving DecidableEq, Repr

/-- A review comment, from CommentSchema.  The constant `type: "comment"`
tag carries no information and is omitted.  `resolvedAt` is a nullable
datetime string; schema validation (z.string().datetime()) rules out the
empty string, so the JS falsiness test `!comment.resolvedAt` coincides
with the `Option.isNone` test used below. -/
structure Comment where
  id : String
  file : String
  line : Nat
  endLine : Option Nat
  side : Side
  body : String
  status : CommentStatus
  response : Option String
  thread : List ThreadEntry
  createdAt : String
  resolvedAt : Option String
deriving DecidableEq, Repr

/-- Modelled from the spec: the Summary shape (§3) used by the store in
src/unnamed/part_020; the zod SummarySchema revision is not under src/.
`global` free text, `files` a mapping from file path to description,
`testPlan` a sequence of description/expected pairs. -/
structure TestPlanEntry where
  description : String
  expected : String
deriving DecidableEq, Repr

/-- Modelled from the spec: see TestPlanEntry. -/
structure Summary where
  global : String
  files : List (String × String)
  testPlan : List TestPlanEntry
deriving DecidableEq, Repr

/-- The persisted review document, from ReviewDataSchema plus the `branch`
and `summary` fields used by src/unnamed/part_020.  `branch` is optional
(legacy documents predate it; load migrates them).  `metadata` is an open
key/value bag (z.record(z.unknown())); values are modelled as strings
since no operation inspects them. -/
structure ReviewData where
  version : Nat
  round : Nat
  status : DocStatus
  ref : String
  branch : Option String
  metadata : List (String × String)
  submittedAt : Option String
  comments : List Comment
  summary : Option Summary
deriving DecidableEq, Repr

/-- A comment draft, from CreateCommentSchema. -/
structure CreateComment where
  file : String
  line : Nat
  endLine : Option Nat
  side : Side
  body : String
deriving DecidableEq, Repr

/-- A comment patch, from UpdateCommentSchema.  Every field is optional;
for `resolvedAt` the outer Option is field presence and the inner Option
is the JSON null, so an explicitly-null `resolvedAt` stays distinct from
an absent one, exactly as `patch.resolvedAt !== undefined` distinguishes
them in the source. -/
structure UpdateComment where
  status : Option CommentStatus
  body : Option String
  resolvedAt : Option (Option String)
  reply : Option String
deriving DecidableEq, Repr

/-! ### Pure mutation bodies of the ReviewStore (src/unnamed/part_020)

Each store method first runs reloadIfChanged and finally writeAtomic;
those effectful layers are modelled further below.  The functions here
are the pure document transformations in between, translated line by
line. -/

/-- The fresh comment built by addComment (part_020 lines 146-160):
`id: nanoid(8)` is the parameter newId, `createdAt` the parameter now,
`endLine: draft.endLine ?? draft.line`, status pending, empty thread. -/
def mkComment (draft : CreateComment) (newId now : String) : Comment :=
  { id := newId
    file := draft.file
    line := draft.line
    endLine := some (draft.endLine.getD draft.line)
    side := draft.side
    body := draft.body
    status := .pending
    response := none
    thread := []
    createdAt := now
    resolvedAt := none }

/-- The document produced by addComment (part_020 lines 162-167):
status becomes submitted, `submittedAt: this.data.submittedAt ?? now`,
the new comment is appended at the end. -/
def addComment (d : ReviewData) (draft : CreateComment) (newId now : String) : ReviewData :=
  { d with
    status := .submitted
    submittedAt := some (d.submittedAt.getD now)
    comments := d.comments ++ [mkComment draft newId now] }

/-- The per-comment patch application of updateComment (part_020 lines
178-191), in source order: if `reply` is present append a user thread
entry stamped now and set status pending; then overwrite status, body,
resolvedAt whenever present; finally, if the patch set status resolved
and the comment has no resolvedAt, stamp it with now. -/
def applyPatch (c : Comment) (patch : UpdateComment) (now : String) : Comment :=
  let c1 :=
    match patch.reply with
    | some r =>
        { c with
          thread := c.thread ++ [{ author := .user, body := r, createdAt := some now }]
          status := .pending }
    | none => c
  let c2 := match patch.status with | some s => { c1 with status := s } | none => c1
  let c3 := match patch.body with | some b => { c2 with body := b } | none => c2
  let c4 := match patch.resolvedAt with | some r => { c3 with resolvedAt := r } | none => c3
  if patch.status = some CommentStatus.resolved ∧ c4.resolvedAt = (none : Option String) then
    { c4 with resolvedAt := some now }
  else c4

/-- Replace the first element whose id matches, mirroring
`findIndex` + positional overwrite (part_020 lines 175, 193-195);
returns the new list and the updated element. -/
def updateFirst (id : String) (f : Comment → Comment) :
    List Comment → Option (List Comment × Comment)
  | [] => none
  | c :: rest =>
      if c.id = id then some (f c :: rest, f c)
      else
        match updateFirst id f rest with
        | none => none
        | some (rest', c') => some (c :: rest', c')

/-- The document transformation of updateComment (part_020 lines
173-203): not-found yields none; otherwise the matched comment is
patched in place and, when every comment of the result is resolved, the
document status is set to resolved (part_020 lines 198-200 — note there
is no else branch, so otherwise the previous document status is kept).
Returns the updated document together with the updated comment, as the
method returns the comment. -/
def updateComment (d : ReviewData) (id : String) (patch : UpdateComment) (now : String) :
    Option (ReviewData × Comment) :=
  match updateFirst id (fun c => applyPatch c patch now) d.comments with
  | none => none
  | some (cs, c') =>
      let st := if cs.all (fun c => c.status = .resolved) then DocStatus.resolved else d.status
      some ({ d with comments := cs, status := st }, c')

/-- The document transformation of deleteComment (part_020 lines
206-216): filter out every comment with the given id; if nothing was
removed report failure (none); the document status is not recomputed. -/
def deleteComment (d : ReviewData) (id : String) : Option ReviewData :=
  let cs := d.comments.filter (fun c => c.id ≠ id)
  if cs.length = d.comments.length then none
  else some { d with comments := cs }

/-- The document transformation of setSummary (part_020 lines 218-226). -/
def setSummary (d : ReviewData) (s : Summary) : ReviewData :=
  { d with summary := some s }

/-! ### Effectful store layer (src/unnamed/part_020)

The store keeps the in-memory copy `data` and the last observed mtime.
The outside world is the review.json file (possibly missing, unreadable
or invalid) plus the temporary file writeAtomic uses.  I/O failures are
injected as parameters: a WriteOutcome chooses which step of writeAtomic
throws, and the on-disk state decides whether reloadIfChanged throws. -/

/-- What reading review.json yields: an I/O error, data that fails
JSON.parse or schema validation, or a valid document. -/
inductive DiskContent
  | unreadable
  | invalid
  | valid (d : ReviewData)
deriving DecidableEq, Repr

/-- The on-disk file together with its mtime. -/
structure DiskFile where
  mtime : Nat
  content : DiskContent
deriving DecidableEq, Repr

/-- The filesystem as the store sees it: the review.json target (none =
missing, so statSync throws) and whether the temporary file exists. -/
structure Fs where
  file : Option DiskFile
  tmp : Bool
deriving DecidableEq, Repr

/-- The store's mutable fields (part_020 lines 8-10). -/
structure StoreMem where
  data : ReviewData
  lastMtime : Nat
deriving DecidableEq, Repr

/-- Which step of writeAtomic fails, if any: serialization/writeFileSync,
or renameSync.  The cleanup unlink is modelled as succeeding. -/
inductive WriteOutcome
  | ok
  | writeFail
  | renameFail
deriving DecidableEq, Repr

/-- writeAtomic (part_020 lines 100-116): write the serialized document
to a temp file, rename it over the target, then record the new mtime and
install the document in memory.  On write or rename failure the temp
file is unlinked, the target file and the memory are untouched, and the
error propagates (the Bool result is false).  The mtime of a successful
write is the parameter newMtime. -/
def writeAtomic (fs : Fs) (mem : StoreMem) (d : ReviewData) (newMtime : Nat)
    (outcome : WriteOutcome) : Fs × StoreMem × Bool :=
  match outcome with
  | .ok => ({ file := some { mtime := newMtime, content := .valid d }, tmp := false },
            { data := d, lastMtime := newMtime }, true)
  | .writeFail => ({ file := fs.file, tmp := false }, mem, false)
  | .renameFail => ({ file := fs.file, tmp := false }, mem, false)

/-- reloadIfChanged (part_020 lines 120-128): stat the file (throws when
missing); when the mtime advanced past lastMtime, re-read and re-parse,
installing the fresh document; unreadable or invalid content throws.
When the mtime did not advance, nothing is read and nothing changes.
Errors are modelled as Except.error. -/
def reloadIfChanged (fs : Fs) (mem : StoreMem) : Except Unit StoreMem :=
  match fs.file with
  | none => .error ()
  | some f =>
      if mem.lastMtime < f.mtime then
        match f.content with
        | .valid d => .ok { data := d, lastMtime := f.mtime }
        | _ => .error ()
      else .ok mem

/-- getData (part_020 lines 130-137): reloadIfChanged wrapped in a
try-catch that only logs, then return a deep copy of the in-memory
document (structuredClone is the identity on values here).  Returns the
possibly-updated memory and the returned document. -/
def getData (fs : Fs) (mem : StoreMem) : StoreMem × ReviewData :=
  match reloadIfChanged fs mem with
  | .ok m => (m, m.data)
  | .error _ => (mem, mem.data)

/-- The store method addComment (part_020 lines 143-171): reload (errors
propagate), build the updated document, writeAtomic it (errors
propagate), return it.  Result: final filesystem, final memory, and the
returned document or the propagated error. -/
def addCommentOp (fs : Fs) (mem : StoreMem) (draft : CreateComment) (newId now : String)
    (newMtime : Nat) (outcome : WriteOutcome) : Fs × StoreMem × Except Unit ReviewData :=
  match reloadIfChanged fs mem with
  | .error _ => (fs, mem, .error ())
  | .ok m =>
      let updated := addComment m.data draft newId now
      let (fs', m', okW) := writeAtomic fs m updated newMtime outcome
      (fs', m', if okW then .ok updated else .error ())

/-- The store method updateComment (part_020 lines 173-204): reload
(errors propagate), return none on unknown id without writing, otherwise
patch, writeAtomic (errors propagate), return the patched comment. -/
def updateCommentOp (fs : Fs) (mem : StoreMem) (id : String) (patch : UpdateComment)
    (now : String) (newMtime : Nat) (outcome : WriteOutcome) :
    Fs × StoreMem × Except Unit (Option Comment) :=
  match reloadIfChanged fs mem with
  | .error _ => (fs, mem, .error ())
  | .ok m =>
      match updateComment m.data id patch now with
      | none => (fs, m, .ok none)
      | some (updated, c') =>
          let (fs', m', okW) := writeAtomic fs m updated newMtime outcome
          (fs', m', if okW then .ok (some c') else .error ())

/-- The store method deleteComment (part_020 lines 206-216): reload
(errors propagate), return false on unknown id without writing,
otherwise writeAtomic the filtered document and return true. -/
def deleteCommentOp (fs : Fs) (mem : StoreMem) (id : String) (newMtime : Nat)
    (outcome : WriteOutcome) : Fs × StoreMem × Except Unit Bool :=
  match reloadIfChanged fs mem with
  | .error _ => (fs, mem, .error ())
  | .ok m =>
      match deleteComment m.data id with
      | none => (fs, m, .ok false)
      | some updated =>
          let (fs', m', okW) := writeAtomic fs m updated newMtime outcome
          (fs', m', if okW then .ok true else .error ())

/-- The store method setSummary (part_020 lines 218-226): reload (errors
propagate), overwrite the summary, writeAtomic (errors propagate). -/
def setSummaryOp (fs : Fs) (mem : StoreMem) (s : Summary) (newMtime : Nat)
    (outcome : WriteOutcome) : Fs × StoreMem × Except Unit ReviewData :=
  match reloadIfChanged fs mem with
  | .error _ => (fs, mem, .error ())
  | .ok m =>
      let updated := setSummary m.data s
      let (fs', m', okW) := writeAtomic fs m updated newMtime outcome
      (fs', m', if okW then .ok updated else .error ())

/-! ### load and backupAndReset (src/unnamed/part_020 lines 19-97) -/

/-- emptyReview (part_020 lines 19-31). -/
def emptyReview (ref branch : String) : ReviewData :=
  { version := 1
    round := 1
    status := .draft
    ref := ref
    branch := some branch
    metadata := []
    submittedAt := none
    comments := []
    summary := none }

/-- sanitizeBranch (part_020 lines 33-35): replace the path-unsafe
characters / \ : * ? " < > | by a dash and keep at most 100 characters
(the source slices UTF-16 code units; the documents here stay within the
basic plane where the two notions coincide). -/
def sanitizeBranch (branch : String) : String :=
  String.mk (((branch.toList.map
    (fun c => if c ∈ ['/', '\\', ':', '*', '?', '"', '<', '>', '|'] then '-' else c))).take 100)

/-- What load finds on disk: no file, a file whose bytes fail JSON.parse
or schema validation, or a parsed document (whose branch field may be
absent on legacy documents). -/
inductive LoadedFile
  | missing
  | corrupt
  | parsed (d : ReviewData)
deriving DecidableEq, Repr

/-- The observable outcome of load: the document it returns, the suffix
of the backup it renamed review.json to (none when no backup was made),
and the document it persisted during load, if any. -/
structure LoadResult where
  returned : ReviewData
  backupSuffix : Option String
  wrote : Option ReviewData
deriving DecidableEq, Repr

/-- backupAndReset (part_020 lines 37-54): rename review.json to
review.json.backup.<suffix>; when the rename fails and an in-memory
document was supplied, keep it and write nothing; otherwise persist and
return a fresh empty document.  renameOk injects the rename outcome. -/
def backupAndReset (ref branch suffix : String) (renameOk : Bool)
    (existing : Option ReviewData) : LoadResult :=
  if renameOk then
    { returned := emptyReview ref branch, backupSuffix := some suffix,
      wrote := some (emptyReview ref branch) }
  else
    match existing with
    | some d => { returned := d, backupSuffix := none, wrote := none }
    | none =>
        { returned := emptyReview ref branch, backupSuffix := none,
          wrote := some (emptyReview ref branch) }

/-- load (part_020 lines 56-97).  nowMs is Date.now() rendered into the
backup suffix; renameOk injects the backup rename outcome; write
failures inside writeAtomic are not modelled here (they would propagate
out of load).  Cases in source order: missing file — persist and return
a fresh empty document; corrupt file — backupAndReset with the timestamp
suffix and no in-memory fallback; legacy document without branch — adopt
the current branch in place and persist (no backup); branch mismatch
with current branch not the "HEAD" sentinel — backupAndReset with
suffix sanitized old branch + "." + timestamp, falling back to the
parsed document when the rename fails; otherwise return the document
unchanged. -/
def load (existing : LoadedFile) (ref branch : String) (nowMs : Nat) (renameOk : Bool) :
    LoadResult :=
  match existing with
  | .missing =>
      { returned := emptyReview ref branch, backupSuffix := none,
        wrote := some (emptyReview ref branch) }
  | .corrupt => backupAndReset ref branch (toString nowMs) renameOk none
  | .parsed d =>
      match d.branch with
      | none =>
          let d' := { d with branch := some branch }
          { returned := d', backupSuffix := none, wrote := some d' }
      | some oldBranch =>
          if oldBranch ≠ branch ∧ branch ≠ "HEAD" then
            backupAndReset ref branch (sanitizeBranch oldBranch ++ "." ++ toString nowMs)
              renameOk (some d)
          else { returned := d, backupSuffix := none, wrote := none }

/-! ### getFileContent (src/unnamed/part_017 lines 141-160)

Absolute paths are modelled as their lists of components: the string
"/repo/src" is the list ["repo", "src"].  A request path carries a flag
recording whether its string form began with "/"; splitting a string on
"/" turns that leading slash into an empty first component, and Node's
path normalization drops empty and "." components, so the component
list of a request path never needs the flag for resolution — path.join
concatenates the raw segment lists regardless of it.  The repo root is
assumed absolute and already normalized, as in the source where it comes
from repo-root discovery. -/

/-- A request path: whether its string form was absolute, and its
components from splitting on "/" (empty components from the leading or
doubled slashes are dropped by normalization anyway and omitted here). -/
structure ReqPath where
  absolute : Bool
  comps : List String
deriving DecidableEq, Repr

/-- Node path normalization of an absolute path, as performed by
path.resolve on an already-absolute argument: "." and empty components
vanish, ".." removes the preceding component and is clamped at the
root. -/
def normAbs (comps : List String) : List String :=
  comps.foldl
    (fun acc c =>
      if c = "" ∨ c = "." then acc
      else if c = ".." then acc.dropLast
      else acc ++ [c])
    []

/-- resolve(join(repoRoot, filePath)) of part_017 line 143.  path.join
concatenates its arguments with "/" and normalizes — a leading "/" on
the second argument is not a reset, join("/repo", "/etc") is "/repo/etc"
— and path.resolve of the resulting absolute string normalizes it. -/
def joinResolve (root : List String) (p : ReqPath) : List String :=
  normAbs (root ++ p.comps)

/-- The guard `resolved.startsWith(resolve(repoRoot) + "/")` of part_017
line 144, on normalized absolute component lists: the root's components
are a proper prefix of the resolved ones.  (String prefixing with the
trailing "/" agrees with component prefixing plus strictly-greater
length, because normalized components contain no "/" and no empty
component.) -/
def insideRoot (root resolved : List String) : Bool :=
  root.isPrefixOf resolved && decide (root.length < resolved.length)

/-- The failure modes of getFileContent. -/
inductive FileError
  | traversal
  | notFound
deriving DecidableEq, Repr

/-- getFileContent (part_017 lines 141-160): resolve the request under
the root and throw the path-traversal error unless the result is
strictly inside the root; otherwise read the resolved path from the
working tree (fsRead, none = ENOENT) and on ENOENT fall back to `git
show HEAD:<raw path>` (gitShow, keyed by the unresolved request path);
when both miss, the git failure propagates (notFound). -/
def getFileContent (fsRead : List String → Option String) (gitShow : ReqPath → Option String)
    (root : List String) (p : ReqPath) : Except FileError String :=
  let resolved := joinResolve root p
  if insideRoot root resolved then
    match fsRead resolved with
    | some content => .ok content
    | none =>
        match gitShow p with
        | some content => .ok content
        | none => .error .notFound
  else .error .traversal

/-! ### SSE broadcast (src/unnamed/part_021 lines 196-208)

Connections are modelled by identifiers; the module-level Set is a list
in its iteration (insertion) order; res.write throwing for a given
connection is the predicate fails.  JS Set semantics make deleting the
current element during iteration safe, so the loop is a simple
traversal. -/

/-- The frame written to each connection (part_021 line 199). -/
def ssePayload (event data : String) : String :=
  "event: " ++ event ++ "\ndata: " ++ data ++ "\n\n"

/-- The loop of broadcast (part_021 lines 200-207): attempt res.write on
every connection in order; a connection whose write throws is removed
from the set and receives nothing.  Returns the surviving connection set
and the list of (connection, frame) deliveries made. -/
def broadcastRun (payload : String) (fails : Nat → Bool) :
    List Nat → List Nat × List (Nat × String)
  | [] => ([], [])
  | c :: rest =>
      let (survivors, delivered) := broadcastRun payload fails rest
      if fails c then (survivors, delivered)
      else (c :: survivors, (c, payload) :: delivered)

/-- broadcast (part_021 lines 198-208). -/
def broadcast (conns : List Nat) (fails : Nat → Bool) (event data : String) :
    List Nat × List (Nat × String) :=
  broadcastRun (ssePayload event data) fails conns

/-! ### Concrete sample states used by counterexamples and witnesses -/

/-- A resolved comment. -/
def cResolved : Comment :=
  { id := "c1", file := "a.ts", line := 1, endLine := some 1, side := .new,
    body := "please fix", status := .resolved, response := none, thread := [],
    createdAt := "t0", resolvedAt := some "t1" }

/-- A pending comment. -/
def cPending : Comment :=
  { cResolved with id := "c2", status := .pending, resolvedAt := none }

/-- A fully resolved document: its single comment is resolved and its
status is resolved, as updateComment leaves it once the last comment is
resolved. -/
def docResolved : ReviewData :=
  { version := 1, round := 1, status := .resolved, ref := "main", branch := some "main",
    metadata := [], submittedAt := some "t0", comments := [cResolved], summary := none }

/-- A submitted document with one resolved and one pending comment. -/
def docPending : ReviewData :=
  { docResolved with status := .submitted, comments := [cResolved, cPending] }

/-- A patch carrying only a reply. -/
def replyPatch : UpdateComment :=
  { status := none, body := none, resolvedAt := none, reply := some "hi" }

/-- A patch carrying a reply together with status resolved. -/
def replyResolvePatch : UpdateComment :=
  { status := some .resolved, body := none, resolvedAt := none, reply := some "hi" }

/-- A comment draft. -/
def draftExample : CreateComment :=
  { file := "a.ts", line := 3, endLine := none, side := .new, body := "nit" }

/-- A working tree in which the file <root>/etc/passwd exists (the root
is "/repo"). -/
def fsWorkingTree : List String → Option String := fun p =>
  if p = ["repo", "etc", "passwd"] then some "inside-root-content" else none

/-- A filesystem holding a valid document newer than the store's last
observed mtime. -/
def fsValid : Fs :=
  { file := some { mtime := 7, content := .valid docPending }, tmp := false }

/-- A store memory lagging behind fsValid. -/
def memStale : StoreMem :=
  { data := docResolved, lastMtime := 3 }

/-- The store memory after a reload against fsValid. -/
def memFresh : StoreMem :=
  { data := docPending, lastMtime := 7 }

/-- A filesystem whose review.json is missing, so every stat of it
throws. -/
def fsMissing : Fs :=
  { file := none, tmp := false }

/-! ### Helper lemmas -/

/-- Inversion for updateFirst: a successful update found a comment with
the requested id in the list, returned its image under f, and kept that
image in the resulting list. -/
theorem updateFirst_inv {id : String} {f : Comment → Comment} :
    ∀ {cs cs' : List Comment} {c' : Comment}, updateFirst id f cs = some (cs', c') →
      ∃ c, c ∈ cs ∧ c.id = id ∧ c' = f c ∧ c' ∈ cs' := by
  intro cs
  induction cs with
  | nil => intro cs' c' h; simp [updateFirst] at h
  | cons c rest ih =>
      intro cs' c' h
      simp only [updateFirst] at h
      by_cases hc : c.id = id
      · rw [if_pos hc] at h
        simp only [Option.some.injEq, Prod.mk.injEq] at h
        obtain ⟨hcs, hc'⟩ := h
        exact ⟨c, by simp, hc, hc'.symm, by rw [← hcs, ← hc']; simp⟩
      · rw [if_neg hc] at h
        cases hr : updateFirst id f rest with
        | none => rw [hr] at h; simp at h
        | some pr =>
            obtain ⟨rest', c2⟩ := pr
            rw [hr] at h
            simp only [Option.some.injEq, Prod.mk.injEq] at h
            obtain ⟨hcs, hc'⟩ := h
            obtain ⟨c0, hmem, hid, hfc, hmem'⟩ := ih hr
            exact ⟨c0, by simp [hmem], hid, by rw [← hc']; exact hfc,
              by rw [← hcs, ← hc']; exact List.mem_cons_of_mem c hmem'⟩

/-- A comment list loses length under the id filter exactly when no
element carries the id — the guard of deleteComment. -/
theorem filter_id_length_eq {cs : List Comment} {id : String} :
    (cs.filter (fun c => c.id ≠ id)).length = cs.length ↔ ∀ c ∈ cs, c.id ≠ id := by
  constructor
  · intro h c hc
    have hsub : (cs.filter (fun c => c.id ≠ id)).Sublist cs := List.filter_sublist cs
    have heq : cs.filter (fun c => c.id ≠ id) = cs := hsub.eq_of_length h
    have := List.filter_eq_self.mp heq c hc
    simpa using this
  · intro h
    rw [List.filter_eq_self.mpr (fun c hc => by simpa using h c hc)]

/-! ### C1 — document status versus comment statuses after mutations -/

/-- C1 counterexample: the claimed invariant "document status is
resolved iff every comment is resolved after any comment mutation"
fails.  On a fully resolved document, updateComment with a pure reply
patch flips the comment back to pending yet leaves the document status
at resolved (part_020 lines 198-200 set status to resolved when all
comments are resolved but never set it back otherwise), so after the
mutation the document status is resolved while not every comment is. -/
theorem updateComment_reply_violates_status_iff :
    (updateComment docResolved "c1" replyPatch "t2").map
        (fun x => (x.1.status, x.1.comments.all (fun c => c.status = CommentStatus.resolved)))
      = some (DocStatus.resolved, false) := rfl

/-- C1 (amended): document status is recomputed only towards resolved
and only by updateComment.  After addComment the iff does hold (status
is submitted and the appended comment is pending); after updateComment,
if every comment of the result is resolved the document status is
resolved — but not conversely; deleteComment never recomputes the
document status. -/
theorem status_recompute_after_mutations :
    (∀ (d : ReviewData) (draft : CreateComment) (newId now : String),
        ((addComment d draft newId now).status = DocStatus.resolved ↔
          (addComment d draft newId now).comments.all
            (fun c => c.status = CommentStatus.resolved) = true))
    ∧ (∀ (d : ReviewData) (id : String) (patch : UpdateComment) (now : String)
          (d' : ReviewData) (c' : Comment),
        updateComment d id patch now = some (d', c') →
        d'.comments.all (fun c => c.status = CommentStatus.resolved) = true →
        d'.status = DocStatus.resolved)
    ∧ (∀ (d : ReviewData) (id : String) (d' : ReviewData),
        deleteComment d id = some d' → d'.status = d.status) := by
  refine ⟨?_, ?_, ?_⟩
  · intro d draft newId now
    simp [addComment, mkComment, List.all_append]
  · intro d id patch now d' c' h hall
    unfold updateComment at h
    cases hu : updateFirst id (fun c => applyPatch c patch now) d.comments with
    | none => rw [hu] at h; simp at h
    | some pr =>
        obtain ⟨cs, c2⟩ := pr
        rw [hu] at h
        simp only [Option.some.injEq, Prod.mk.injEq] at h
        obtain ⟨hd', _⟩ := h
        subst hd'
        simp only [] at hall ⊢
        simp [hall]
  · intro d id d' h
    unfold deleteComment at h
    have h' : (if (d.comments.filter (fun c => c.id ≠ id)).length = d.comments.length
        then none
        else some { d with comments := d.comments.filter (fun c => c.id ≠ id) }) = some d' := h
    split at h'
    · simp at h'
    · simp only [Option.some.injEq] at h'
      subst h'
      rfl

/-- The comment produced by resolving cPending with replyResolvePatch at
time t9. -/
def cAfterResolve : Comment :=
  { cPending with
    status := .resolved
    thread := [{ author := .user, body := "hi", createdAt := some "t9" }]
    resolvedAt := some "t9" }

/-- The document produced by that update: every comment resolved, so the
status recomputation fires. -/
def docAfterResolve : ReviewData :=
  { docPending with status := .resolved, comments := [cResolved, cAfterResolve] }

/-- The document produced by deleting c2 from docPending: the status is
left at submitted. -/
def docAfterDelete : ReviewData :=
  { docPending with comments := [cResolved] }

/-- Witness for C1 (amended), at concrete inputs: resolving the last
pending comment of docPending turns the document status resolved, and
deleting a comment leaves the status untouched. -/
theorem status_recompute_after_mutations_witness :
    updateComment docPending "c2" replyResolvePatch "t9" = some (docAfterResolve, cAfterResolve)
    ∧ docAfterResolve.status = DocStatus.resolved
    ∧ deleteComment docPending "c2" = some docAfterDelete
    ∧ docAfterDelete.status = docPending.status := by
  refine ⟨by decide, ?_, by decide, ?_⟩
  · exact status_recompute_after_mutations.2.1 docPending "c2" replyResolvePatch "t9"
      docAfterResolve cAfterResolve (by decide) (by decide)
  · exact status_recompute_after_mutations.2.2 docPending "c2" docAfterDelete (by decide)

/-! ### C2 — reply handling in updateComment -/

/-- A patch with a reply appends exactly the one user entry to the
thread; the later patch stages touch only status, body and resolvedAt. -/
theorem applyPatch_reply_thread {c : Comment} {patch : UpdateComment} {r now : String}
    (h : patch.reply = some r) :
    (applyPatch c patch now).thread
      = c.thread ++ [{ author := .user, body := r, createdAt := some now }] := by
  unfold applyPatch
  rw [h]
  cases hs : patch.status <;> cases hb : patch.body <;> cases hr2 : patch.resolvedAt <;>
    simp [hs, hb, hr2] <;> split <;> rfl

/-- A patch with a reply and no status field leaves the comment pending:
the reply stage sets pending and no later stage writes status. -/
theorem applyPatch_reply_status {c : Comment} {patch : UpdateComment} {r now : String}
    (h : patch.reply = some r) (hs : patch.status = none) :
    (applyPatch c patch now).status = CommentStatus.pending := by
  unfold applyPatch
  rw [h, hs]
  cases hb : patch.body <;> cases hr2 : patch.resolvedAt <;> simp [hb, hr2]

/-- C2 counterexample: the claim says a present reply leaves the comment
pending regardless of the other patch fields, but a patch carrying both
a reply and status resolved yields a resolved comment — the status field
is applied after the reply (part_020 line 186) and wins. -/
theorem updateComment_reply_overridden_by_status :
    (updateComment docResolved "c1" replyResolvePatch "t2").map (fun x => x.2.status)
      = some CommentStatus.resolved := rfl

/-- C2 (amended): for a stored comment id and a patch whose reply is
present, updateComment appends exactly one thread entry with author user
and body the reply to that comment's thread, keeps the updated comment
in the document, and — when the patch carries no status field — leaves
the comment with status pending; a status field present in the same
patch is applied after the reply and determines the final status. -/
theorem updateComment_reply_spec :
    ∀ (d : ReviewData) (id : String) (patch : UpdateComment) (r now : String)
      (d' : ReviewData) (c' : Comment),
      patch.reply = some r →
      updateComment d id patch now = some (d', c') →
      ∃ c, c ∈ d.comments ∧ c.id = id ∧
        c'.thread = c.thread ++ [{ author := .user, body := r, createdAt := some now }] ∧
        (patch.status = none → c'.status = CommentStatus.pending) ∧
        c' ∈ d'.comments := by
  intro d id patch r now d' c' hr h
  unfold updateComment at h
  cases hu : updateFirst id (fun c => applyPatch c patch now) d.comments with
  | none => rw [hu] at h; simp at h
  | some pr =>
      obtain ⟨cs, c2⟩ := pr
      rw [hu] at h
      simp only [Option.some.injEq, Prod.mk.injEq] at h
      obtain ⟨hd', hc2⟩ := h
      obtain ⟨c, hmem, hid, hfc, hmem'⟩ := updateFirst_inv hu
      subst hc2
      refine ⟨c, hmem, hid, ?_, ?_, ?_⟩
      · rw [hfc]
        exact applyPatch_reply_thread hr
      · intro hs
        rw [hfc]
        exact applyPatch_reply_status hr hs
      · rw [← hd']
        exact hmem'

/-- The comment produced by replying to cPending at time t9: the thread
gains the user entry, status stays pending. -/
def cAfterReply : Comment :=
  { cPending with thread := [{ author := .user, body := "hi", createdAt := some "t9" }] }

/-- The document after that reply: the pending comment keeps the
document away from resolved, so its status stays submitted. -/
def docAfterReply : ReviewData :=
  { docPending with comments := [cResolved, cAfterReply] }

/-- Witness for C2 (amended): replying to comment c2 of docPending. -/
theorem updateComment_reply_spec_witness :
    replyPatch.reply = some "hi"
    ∧ updateComment docPending "c2" replyPatch "t9" = some (docAfterReply, cAfterReply)
    ∧ ∃ c, c ∈ docPending.comments ∧ c.id = "c2" ∧
        cAfterReply.thread
          = c.thread ++ [{ author := Author.user, body := "hi", createdAt := some "t9" }] ∧
        (replyPatch.status = none → cAfterReply.status = CommentStatus.pending) ∧
        cAfterReply ∈ docAfterReply.comments :=
  ⟨rfl, by decide,
   updateComment_reply_spec docPending "c2" replyPatch "hi" "t9" docAfterReply cAfterReply
     rfl (by decide)⟩

/-! ### C3 — addComment -/

/-- C3 (confirmed): for every prior document and draft, addComment
appends the freshly built comment at the end of the sequence; the new
comment carries the generated id, status pending and an empty thread;
under the freshness of the generated id (nanoid output, injected as the
parameter newId) its id differs from every existing comment's id; the
document status becomes submitted; submittedAt is stamped only when it
was null and an already-set submittedAt is kept. -/
theorem addComment_spec :
    ∀ (d : ReviewData) (draft : CreateComment) (newId now : String),
      (∀ c ∈ d.comments, c.id ≠ newId) →
      (addComment d draft newId now).comments = d.comments ++ [mkComment draft newId now]
      ∧ (mkComment draft newId now).id = newId
      ∧ (mkComment draft newId now).status = CommentStatus.pending
      ∧ (mkComment draft newId now).thread = []
      ∧ (∀ c ∈ d.comments, c.id ≠ (mkComment draft newId now).id)
      ∧ (addComment d draft newId now).status = DocStatus.submitted
      ∧ (d.submittedAt = none → (addComment d draft newId now).submittedAt = some now)
      ∧ (∀ t, d.submittedAt = some t → (addComment d draft newId now).submittedAt = some t) := by
  intro d draft newId now hfresh
  refine ⟨rfl, rfl, rfl, rfl, hfresh, rfl, ?_, ?_⟩
  · intro h
    simp [addComment, h]
  · intro t h
    simp [addComment, h]

/-- Witness for C3, at concrete inputs: adding a comment with the fresh
id n1 to docPending. -/
theorem addComment_spec_witness :
    (∀ c ∈ docPending.comments, c.id ≠ "n1")
    ∧ (addComment docPending draftExample "n1" "t9").status = DocStatus.submitted
    ∧ (addComment docPending draftExample "n1" "t9").comments
        = docPending.comments ++ [mkComment draftExample "n1" "t9"] :=
  ⟨by decide,
   (addComment_spec docPending draftExample "n1" "t9" (by decide)).2.2.2.2.2.1,
   (addComment_spec docPending draftExample "n1" "t9" (by decide)).1⟩

/-! ### C4 — path traversal in getFileContent -/

/-- C4 counterexample: the claim says the absolute input "/etc/passwd"
fails with the path-traversal error and never yields content.  But
path.join interprets an absolute second argument relative to the root
(join("/repo", "/etc/passwd") is "/repo/etc/passwd"), so the resolved
form lies inside the root, the guard passes, and in a working tree where
<root>/etc/passwd exists the call returns that file's content instead of
the traversal error. -/
theorem getFileContent_absolute_reads_inside_root :
    getFileContent fsWorkingTree (fun _ => none) ["repo"]
      { absolute := true, comps := ["etc", "passwd"] } = .ok "inside-root-content" := rfl

/-- C4 (amended): getFileContent fails with the path-traversal error
exactly when resolve(join(root, path)) falls outside the root; in
particular the relative escape "../../../etc/passwd" is rejected with
the traversal error.  Absolute-path inputs are instead joined under the
root, so they are served from inside the root and never trigger the
error; no input ever causes a read outside the root. -/
theorem getFileContent_traversal_iff :
    (∀ (fsRead : List String → Option String) (gitShow : ReqPath → Option String)
        (root : List String) (p : ReqPath),
      getFileContent fsRead gitShow root p = .error .traversal ↔
        insideRoot root (joinResolve root p) = false)
    ∧ (∀ (fsRead : List String → Option String) (gitShow : ReqPath → Option String),
      getFileContent fsRead gitShow ["repo"]
          { absolute := false, comps := ["..", "..", "..", "etc", "passwd"] }
        = .error .traversal) := by
  constructor
  · intro fsRead gitShow root p
    unfold getFileContent
    cases h : insideRoot root (joinResolve root p) with
    | false => simp [h]
    | true =>
        simp only [h, if_true]
        cases hf : fsRead (joinResolve root p) with
        | some s => simp [hf]
        | none =>
            simp only [hf]
            cases hg : gitShow p with
            | some s => simp [hg]
            | none => simp [hg]
  · intro fsRead gitShow
    rfl

/-! ### C5 — atomicity of writeAtomic -/

/-- A summary value. -/
def summaryExample : Summary :=
  { global := "looks good", files := [], testPlan := [] }

/-- C5 (confirmed): on a write or rename failure writeAtomic leaves the
target file and the in-memory document untouched, removes the temporary
file and reports failure; on success the renamed file and the memory
both hold the new document.  The store mutations all persist through
writeAtomic, so a failing write makes them propagate the error with the
on-disk file unchanged and the memory still at its post-reload value. -/
theorem writeAtomic_atomic :
    ∀ (fs : Fs) (mem : StoreMem) (d : ReviewData) (newMtime : Nat) (outcome : WriteOutcome),
      (outcome ≠ .ok →
        writeAtomic fs mem d newMtime outcome = ({ file := fs.file, tmp := false }, mem, false))
      ∧ writeAtomic fs mem d newMtime .ok
          = ({ file := some { mtime := newMtime, content := .valid d }, tmp := false },
             { data := d, lastMtime := newMtime }, true)
      ∧ (∀ m draft newId now, reloadIfChanged fs mem = .ok m → outcome ≠ .ok →
          addCommentOp fs mem draft newId now newMtime outcome
            = ({ file := fs.file, tmp := false }, m, .error ()))
      ∧ (∀ m s, reloadIfChanged fs mem = .ok m → outcome ≠ .ok →
          setSummaryOp fs mem s newMtime outcome
            = ({ file := fs.file, tmp := false }, m, .error ()))
      ∧ (∀ m id patch now u c', reloadIfChanged fs mem = .ok m → outcome ≠ .ok →
          updateComment m.data id patch now = some (u, c') →
          updateCommentOp fs mem id patch now newMtime outcome
            = ({ file := fs.file, tmp := false }, m, .error ()))
      ∧ (∀ m id u, reloadIfChanged fs mem = .ok m → outcome ≠ .ok →
          deleteComment m.data id = some u →
          deleteCommentOp fs mem id newMtime outcome
            = ({ file := fs.file, tmp := false }, m, .error ())) := by
  intro fs mem d newMtime outcome
  refine ⟨?_, rfl, ?_, ?_, ?_, ?_⟩
  · intro ho
    cases outcome with
    | ok => exact absurd rfl ho
    | writeFail => rfl
    | renameFail => rfl
  · intro m draft newId now hre ho
    unfold addCommentOp
    rw [hre]
    cases outcome with
    | ok => exact absurd rfl ho
    | writeFail => rfl
    | renameFail => rfl
  · intro m s hre ho
    unfold setSummaryOp
    rw [hre]
    cases outcome with
    | ok => exact absurd rfl ho
    | writeFail => rfl
    | renameFail => rfl
  · intro m id patch now u c' hre ho hu
    simp only [updateCommentOp, hre, hu]
    cases outcome with
    | ok => exact absurd rfl ho
    | writeFail => rfl
    | renameFail => rfl
  · intro m id u hre ho hu
    simp only [deleteCommentOp, hre, hu]
    cases outcome with
    | ok => exact absurd rfl ho
    | writeFail => rfl
    | renameFail => rfl

/-- Witness for C5, at concrete inputs: a failing rename on fsValid. -/
theorem writeAtomic_atomic_witness :
    writeAtomic fsValid memStale docPending 9 .renameFail
      = ({ file := fsValid.file, tmp := false }, memStale, false)
    ∧ setSummaryOp fsValid memStale summaryExample 9 .renameFail
      = ({ file := fsValid.file, tmp := false }, memFresh, .error ()) :=
  ⟨(writeAtomic_atomic fsValid memStale docPending 9 .renameFail).1 (by decide),
   (writeAtomic_atomic fsValid memStale docPending 9 .renameFail).2.2.2.1 memFresh
     summaryExample rfl (by decide)⟩

/-! ### C6 — branch switch on load -/

/-- C6 (confirmed): when load finds a valid document whose branch
differs from the current one and the current branch is not the
detached-HEAD sentinel, it renames the file to a backup suffixed with
the sanitized old branch name and the timestamp, persists and returns a
fresh empty document (status draft, no comments); when the current
branch is the literal "HEAD", no backup is made and the document is
returned unchanged. -/
theorem load_branch_switch_spec :
    ∀ (d : ReviewData) (oldBranch ref branch : String) (nowMs : Nat),
      d.branch = some oldBranch →
      ((oldBranch ≠ branch ∧ branch ≠ "HEAD") →
        load (.parsed d) ref branch nowMs true
          = { returned := emptyReview ref branch,
              backupSuffix := some (sanitizeBranch oldBranch ++ "." ++ toString nowMs),
              wrote := some (emptyReview ref branch) })
      ∧ (branch = "HEAD" →
        load (.parsed d) ref branch nowMs true
          = { returned := d, backupSuffix := none, wrote := none })
      ∧ (emptyReview ref branch).status = DocStatus.draft
      ∧ (emptyReview ref branch).comments = [] := by
  intro d oldBranch ref branch nowMs hb
  refine ⟨?_, ?_, rfl, rfl⟩
  · intro hcond
    simp only [load, hb]
    rw [if_pos hcond]
    rfl
  · intro hH
    simp only [load, hb]
    rw [if_neg (fun hc : _ ∧ branch ≠ "HEAD" => hc.2 hH)]

/-- Witness for C6, at concrete inputs: docPending (branch "main")
loaded under branch "feature" and under the sentinel "HEAD". -/
theorem load_branch_switch_spec_witness :
    load (.parsed docPending) "main" "feature" 5 true
      = { returned := emptyReview "main" "feature",
          backupSuffix := some (sanitizeBranch "main" ++ "." ++ toString 5),
          wrote := some (emptyReview "main" "feature") }
    ∧ load (.parsed docPending) "main" "HEAD" 5 true
      = { returned := docPending, backupSuffix := none, wrote := none } :=
  ⟨(load_branch_switch_spec docPending "main" "main" "feature" 5 rfl).1 (by decide),
   (load_branch_switch_spec docPending "main" "main" "HEAD" 5 rfl).2.1 rfl⟩

/-! ### C7 — corruption recovery on load -/

/-- C7 (confirmed): a file that fails parsing or validation is renamed
to a backup suffixed with the timestamp alone, a fresh empty draft
document (no comments, null submittedAt and summary) is persisted and
returned, and the corruption is not surfaced: load returns a document
for every rename outcome. -/
theorem load_corruption_recovery :
    ∀ (ref branch : String) (nowMs : Nat),
      load .corrupt ref branch nowMs true
        = { returned := emptyReview ref branch, backupSuffix := some (toString nowMs),
            wrote := some (emptyReview ref branch) }
      ∧ (∀ renameOk, (load .corrupt ref branch nowMs renameOk).returned = emptyReview ref branch)
      ∧ (emptyReview ref branch).status = DocStatus.draft
      ∧ (emptyReview ref branch).comments = []
      ∧ (emptyReview ref branch).submittedAt = none
      ∧ (emptyReview ref branch).summary = none := by
  intro ref branch nowMs
  refine ⟨rfl, ?_, rfl, rfl, rfl, rfl⟩
  · intro renameOk
    cases renameOk <;> rfl

/-! ### C8 — broadcast resilience -/

/-- C8 (confirmed): broadcast delivers the SSE frame to exactly the
connections whose write does not throw, in order, and the surviving
connection set is the original minus exactly the failing connections —
one failing client is removed without affecting delivery to the rest. -/
theorem broadcast_spec :
    ∀ (conns : List Nat) (fails : Nat → Bool) (event data : String),
      broadcast conns fails event data
        = (conns.filter (fun c => !fails c),
           (conns.filter (fun c => !fails c)).map (fun c => (c, ssePayload event data))) := by
  intro conns fails event data
  unfold broadcast
  induction conns with
  | nil => rfl
  | cons c rest ih =>
      simp only [broadcastRun, ih, List.filter_cons]
      cases hf : fails c <;> simp [hf]

/-! ### C9 — reload-failure asymmetry -/

/-- C9 (confirmed): when re-reading the document file fails (missing,
unreadable, unparsable or invalid — every case in which reloadIfChanged
throws), getData swallows the error and returns the in-memory document
unchanged, while each mutating operation propagates the error and leaves
the filesystem and the memory exactly as they were. -/
theorem reload_failure_asymmetry :
    ∀ (fs : Fs) (mem : StoreMem),
      reloadIfChanged fs mem = .error () →
      getData fs mem = (mem, mem.data)
      ∧ (∀ draft newId now newMtime outcome,
          addCommentOp fs mem draft newId now newMtime outcome = (fs, mem, .error ()))
      ∧ (∀ id patch now newMtime outcome,
          updateCommentOp fs mem id patch now newMtime outcome = (fs, mem, .error ()))
      ∧ (∀ id newMtime outcome,
          deleteCommentOp fs mem id newMtime outcome = (fs, mem, .error ()))
      ∧ (∀ s newMtime outcome,
          setSummaryOp fs mem s newMtime outcome = (fs, mem, .error ())) := by
  intro fs mem h
  refine ⟨?_, ?_, ?_, ?_, ?_⟩
  · simp only [getData, h]
  · intro draft newId now newMtime outcome
    simp only [addCommentOp, h]
  · intro id patch now newMtime outcome
    simp only [updateCommentOp, h]
  · intro id newMtime outcome
    simp only [deleteCommentOp, h]
  · intro s newMtime outcome
    simp only [setSummaryOp, h]

/-- Witness for C9, at concrete inputs: the document file is missing, so
reloading throws; getData still answers from memory while deleteComment
fails without touching anything. -/
theorem reload_failure_asymmetry_witness :
    reloadIfChanged fsMissing memStale = .error ()
    ∧ getData fsMissing memStale = (memStale, memStale.data)
    ∧ deleteCommentOp fsMissing memStale "c1" 9 .ok = (fsMissing, memStale, .error ()) :=
  ⟨rfl, (reload_failure_asymmetry fsMissing memStale rfl).1,
   (reload_failure_asymmetry fsMissing memStale rfl).2.2.2.1 "c1" 9 .ok⟩

/-! ### C10 — deleteComment frame conditions -/

/-- C10 (confirmed): after the optimistic reload yields the document m,
deleteComment removes exactly the comments carrying the requested id and
leaves every other document field (version, round, status, ref, branch,
metadata, submittedAt, summary) at its previous value — the status is
not recomputed; when the id is absent it returns false and neither the
filesystem nor the store memory moves past the reloaded state; when some
comment carries the id the deletion does take place. -/
theorem deleteComment_frame :
    ∀ (fs : Fs) (mem : StoreMem) (id : String) (newMtime : Nat) (m : StoreMem),
      reloadIfChanged fs mem = .ok m →
      ((∀ c ∈ m.data.comments, c.id ≠ id) →
        deleteCommentOp fs mem id newMtime .ok = (fs, m, .ok false))
      ∧ (∀ d', deleteComment m.data id = some d' →
          deleteCommentOp fs mem id newMtime .ok
            = ({ file := some { mtime := newMtime, content := .valid d' }, tmp := false },
               { data := d', lastMtime := newMtime }, .ok true)
          ∧ d'.comments = m.data.comments.filter (fun c => c.id ≠ id)
          ∧ (∀ c, c ∈ d'.comments ↔ c ∈ m.data.comments ∧ c.id ≠ id)
          ∧ d'.version = m.data.version ∧ d'.round = m.data.round
          ∧ d'.status = m.data.status ∧ d'.ref = m.data.ref ∧ d'.branch = m.data.branch
          ∧ d'.metadata = m.data.metadata ∧ d'.submittedAt = m.data.submittedAt
          ∧ d'.summary = m.data.summary)
      ∧ ((∃ c ∈ m.data.comments, c.id = id) → deleteComment m.data id ≠ none) := by
  intro fs mem id newMtime m hre
  refine ⟨?_, ?_, ?_⟩
  · intro habs
    have hnone : deleteComment m.data id = none := by
      unfold deleteComment
      have h' : (m.data.comments.filter (fun c => c.id ≠ id)).length
          = m.data.comments.length := filter_id_length_eq.mpr habs
      simp [h']
      exact habs
    simp only [deleteCommentOp, hre, hnone]
  · intro d' hdel
    have hshape : d' = { m.data with comments := m.data.comments.filter (fun c => c.id ≠ id) } := by
      unfold deleteComment at hdel
      have h' : (if (m.data.comments.filter (fun c => c.id ≠ id)).length
            = m.data.comments.length
          then none
          else some { m.data with
            comments := m.data.comments.filter (fun c => c.id ≠ id) }) = some d' := hdel
      split at h'
      · simp at h'
      · simpa using h'.symm
    refine ⟨?_, ?_, ?_, ?_, ?_, ?_, ?_, ?_, ?_, ?_, ?_⟩
    · simp only [deleteCommentOp, hre, hdel]
      rw [hshape]
      rfl
    · rw [hshape]
    · intro c
      rw [hshape]
      simp [List.mem_filter]
    all_goals rw [hshape]
  · intro ⟨c, hmem, hid⟩ hnone
    unfold deleteComment at hnone
    have h' : (if (m.data.comments.filter (fun c => c.id ≠ id)).length
          = m.data.comments.length
        then none
        else some { m.data with
          comments := m.data.comments.filter (fun c => c.id ≠ id) }) = none := hnone
    split at h'
    · next hlen => exact (filter_id_length_eq.mp hlen) c hmem hid
    · simp at h'

/-- Witness for C10, at concrete inputs: deleting the absent id zz is a
refused no-op and deleting c2 removes exactly that comment. -/
theorem deleteComment_frame_witness :
    reloadIfChanged fsValid memStale = .ok memFresh
    ∧ deleteCommentOp fsValid memStale "zz" 9 .ok = (fsValid, memFresh, .ok false)
    ∧ deleteCommentOp fsValid memStale "c2" 9 .ok
        = ({ file := some { mtime := 9, content := .valid docAfterDelete }, tmp := false },
           { data := docAfterDelete, lastMtime := 9 }, .ok true) :=
  ⟨rfl,
   (deleteComment_frame fsValid memStale "zz" 9 memFresh rfl).1 (by decide),
   ((deleteComment_frame fsValid memStale "c2" 9 memFresh rfl).2.1 docAfterDelete (by decide)).1⟩

end ClaudineReview
